import Mathlib

/-!
Verification of the pipeline-orchestration layer of prosoda
(`prosoda/project.py`): `project_setup`, `project_analyse` and
`mailinglist_analyse`, shallowly embedded as functions producing the trace
of scheduler interactions (`BatchJob.set_parallel_jobs`, `BatchJob.add`,
`BatchJob.join`, the global post-processing stages and the direct
`execute_command` invocations).  Job handles are assigned sequentially at
submission time, matching the monotone-handle contract of the scheduler.
-/

namespace Prosoda

/-- Keyword arguments a job submission or a direct `execute_command` call may
carry: the per-job direct I/O option and the working directory. -/
structure Kwargs where
  directIoFlag : Option Bool := none
  cwd : Option String := none
deriving DecidableEq, Repr

/-- The work payload of a submitted job, mirroring the five callables passed to
`BatchJob.add` in `project.py`. -/
inductive Work where
  | doProjectAnalysis (startRev endRev rcRev rangeResdir repo : String)
      (createDb limitHistory : Bool)
  | loginfo (msg : String)
  | executeCommand (cmd : List String)
  | layoutGraph (file : String)
  | generateReport (startRev endRev rangeResdir : String)
deriving DecidableEq, Repr

/-- One `BatchJob.add` call: the handle the scheduler returned, the work, the
keyword arguments and the dependency handles passed in `deps`. -/
structure AddItem where
  handle : Nat
  work : Work
  kwargs : Kwargs
  deps : List Nat
deriving DecidableEq, Repr

/-- Observable actions performed by the orchestration layer, in program order. -/
inductive Event where
  | setParallelJobs (n : Nat)
  | check4ctags
  | add (a : AddItem)
  | join (handles : List Nat)
  | dispatchTsAnalysis (resdir : String)
  | executeCommandDirect (cmd : List String) (kwargs : Kwargs)
deriving DecidableEq, Repr

/-- The database layer consumed by `project_setup` and `project_analyse`
(an external collaborator, abstracted as pure query functions). -/
structure DB where
  getProjectID : String → String → Nat
  getRevisionID : Nat → String → Nat
  getReleaseRangeID : Nat → Nat × Nat → Nat
  getReleaseRange : Nat → Nat → String × String × String

/-- The fields of the loaded configuration that `project.py` reads. -/
structure Conf where
  project : String
  tagging : String
  repo : String
  revisions : List String
  rcs : List String
  mailinglists : List (String × String)

/-- The environment of a `project_analyse` run: its parameters together with
the external collaborators (configuration loading, database, filesystem glob). -/
structure Env where
  resdir : String
  gitdir : String
  prosoda_conf : String
  project_conf : String
  no_report : Bool
  loglevel : String
  logfile : Option String
  recreate : Bool
  n_jobs : Nat
  conf : Conf
  db : DB
  globDot : String → List String

/-- `os.path.join` for the two-component uses in `project.py`. -/
def pathjoin (a b : String) : String := a ++ "/" ++ b

/-- `os.path.split`: split a path into directory part and final component. -/
def pathsplit (p : String) : String × String :=
  let r := p.toList.reverse
  let base := (r.takeWhile (fun c => c ≠ '/')).reverse
  let rest := r.dropWhile (fun c => c ≠ '/')
  (String.mk (rest.drop 1).reverse, String.mk base)

/-- `pkg_resources.resource_filename`, an external collaborator, modelled as
resolving the resource path relative to the package name. -/
def resource_filename (pkg path : String) : String := pkg ++ "/" ++ path

/-- `project_setup(conf, recreate)`: registers the project in the database and
returns the project id and the release-range ids for consecutive revision
pairs (`zip(revs, revs[1:])`). -/
def project_setup (db : DB) (conf : Conf) : Nat × List Nat :=
  let projectId := db.getProjectID conf.project conf.tagging
  let revs := conf.revisions
  (projectId,
    (revs.zip revs.tail).map fun p =>
      db.getReleaseRangeID projectId
        (db.getRevisionID projectId p.1, db.getRevisionID projectId p.2))

/-- The log message submitted before the cluster-detection job. -/
def clusterMsg (startRev endRev : String) : String :=
  "  -> Analysing revision range " ++ startRev ++ ".." ++ endRev ++
    ": Detecting clusters..."

/-- The log message submitted before the graph-rendering jobs. -/
def reportMsg (startRev endRev : String) : String :=
  "  -> Analysing revision range " ++ startRev ++ ".." ++ endRev ++
    ": Generating Reports..."

/-- Path of the cluster-analysis R script. -/
def personsExe : String := resource_filename ("prosoda.project") ("R/cluster/persons.r")

/-- Working directory for the cluster-analysis script. -/
def personsCwd : String := (pathsplit personsExe).1

/-- The argument vector of the cluster-detection job for range `i`. -/
def clusterCmd (env : Env) (i rangeId : Nat) (rangeResdir : String) : List String :=
  [personsExe, "--loglevel", env.loglevel] ++
    (match env.logfile with
     | some lf => ["--logfile", lf ++ ".R.r" ++ toString i]
     | none => []) ++
    ["-c", env.prosoda_conf, "-p", env.project_conf, rangeResdir, toString rangeId]

/-- The per-file graph-rendering submissions: one `layout_graph` job per `.dot`
file, with handles assigned sequentially from `c` and `deps=[s2, lj]`. -/
def layoutEvents (s2 lj : Nat) : List String → Nat → List Event
  | [], _ => []
  | f :: fs, c =>
      Event.add ⟨c, Work.layoutGraph f, ⟨none, none⟩, [s2, lj]⟩ ::
        layoutEvents s2 lj fs (c + 1)

/-- The per-range result directory `project_resdir/start-end`. -/
def projectResdir (env : Env) : String :=
  pathjoin (pathjoin env.resdir env.conf.project) env.conf.tagging

/-- The result directory `project_resdir/start-end` of one revision range. -/
def rangeResdirOf (env : Env) (projectId rangeId : Nat) : String :=
  pathjoin (projectResdir env)
    ((env.db.getReleaseRange projectId rangeId).1 ++ "-" ++
      (env.db.getReleaseRange projectId rangeId).2.1)

/-- The body of `project_analyse`'s loop for one revision range: the events it
emits, the next free handle, and the handles it appends to `jobs`. -/
def analyseRange (env : Env) (projectId i rangeId c : Nat) :
    List Event × Nat × List Nat :=
  let sr := (env.db.getReleaseRange projectId rangeId).1
  let er := (env.db.getReleaseRange projectId rangeId).2.1
  let rc := (env.db.getReleaseRange projectId rangeId).2.2
  let rangeResdir := rangeResdirOf env projectId rangeId
  let repo := pathjoin (pathjoin env.gitdir env.conf.repo) ".git"
  let s1 := c
  let e1 := Event.add ⟨s1, Work.doProjectAnalysis sr er rc rangeResdir repo true true,
    ⟨none, none⟩, []⟩
  let e2 := Event.add ⟨c + 1, Work.loginfo (clusterMsg sr er), ⟨none, none⟩, [s1]⟩
  let s2 := c + 2
  let e3 := Event.add ⟨s2, Work.executeCommand (clusterCmd env i rangeId rangeResdir),
    ⟨some true, some personsCwd⟩, [s1]⟩
  if env.no_report then
    ([e1, e2, e3], c + 3, [s2])
  else
    let files := env.globDot rangeResdir
    let lj := c + 3
    let e4 := Event.add ⟨lj, Work.loginfo (reportMsg sr er), ⟨none, none⟩, [s2]⟩
    let dotjobs := List.range' (c + 4) files.length
    let rep := c + 4 + files.length
    let e5 := Event.add ⟨rep, Work.generateReport sr er rangeResdir,
      ⟨none, none⟩, dotjobs⟩
    (e1 :: e2 :: e3 :: e4 :: (layoutEvents s2 lj files (c + 4) ++ [e5]),
      c + 5 + files.length, [s2, rep])

/-- The whole loop of `project_analyse` over `enumerate(all_range_ids)`:
per-range event chunks, the final handle counter and the collected `jobs`. -/
def analyseRanges (env : Env) (projectId : Nat) :
    List Nat → Nat → Nat → List (List Event) × Nat × List Nat
  | [], _, c => ([], c, [])
  | rid :: rest, i, c =>
      let r := analyseRange env projectId i rid c
      let rs := analyseRanges env projectId rest (i + 1) r.2.1
      (r.1 :: rs.1, rs.2.1, r.2.2 ++ rs.2.2)

/-- The per-range event chunks of a `project_analyse` run. -/
def rangeChunks (env : Env) : List (List Event) :=
  let s := project_setup env.db env.conf
  (analyseRanges env s.1 s.2 0 0).1

/-- Path of the time-series analysis R script. -/
def analyseTsExe : String := resource_filename ("prosoda.project") ("R/analyse_ts.r")

/-- Working directory for the time-series analysis script. -/
def analyseTsCwd : String := (pathsplit analyseTsExe).1

/-- The argument vector of the global time-series analysis invocation. -/
def tsCmd (env : Env) : List String :=
  [analyseTsExe] ++
    (match env.logfile with
     | some lf => ["--logfile", lf ++ ".R.ts"]
     | none => []) ++
    ["--loglevel", env.loglevel, "-c", env.prosoda_conf, "-p", env.project_conf,
      projectResdir env]

/-- The trace of `project_analyse(resdir, gitdir, prosoda_conf, project_conf,
no_report, loglevel, logfile, recreate, n_jobs)`. -/
def project_analyse (env : Env) : List Event :=
  let s := project_setup env.db env.conf
  let r := analyseRanges env s.1 s.2 0 0
  Event.setParallelJobs env.n_jobs ::
    ((if env.conf.tagging = "proximity" then [Event.check4ctags] else []) ++
      r.1.flatten ++
      (Event.join r.2.2 ::
        Event.dispatchTsAnalysis (projectResdir env) ::
        [Event.executeCommandDirect (tsCmd env) ⟨some true, some analyseTsCwd⟩]))

/-- Path of the mailing-list analysis R script. -/
def mlExe : String := resource_filename ("prosoda.project") ("R/ml/batch.r")

/-- The environment of a `mailinglist_analyse` run. -/
structure MlEnv where
  resdir : String
  mldir : String
  prosoda_conf : String
  project_conf : String
  loglevel : String
  logfile : Option String
  jobs : Nat
  conf : Conf

/-- The shared tail of the mailing-list command vector. -/
def mlCmdBase (env : MlEnv) (mlResdir : String) : List String :=
  ["--loglevel", env.loglevel, "-c", env.prosoda_conf, "-p", env.project_conf,
    "-j", toString env.jobs, mlResdir, env.mldir]

/-- One `execute_command` invocation per mailing list, enumerated from `i`. -/
def mlEvents (env : MlEnv) (base : List String) :
    List (String × String) → Nat → List Event
  | [], _ => []
  | ml :: rest, i =>
      let logargs := match env.logfile with
        | some lf => ["--logfile", lf ++ ".R.ml." ++ toString i]
        | none => []
      Event.executeCommandDirect (mlExe :: (logargs ++ base ++ [ml.1]))
          ⟨some true, some (pathsplit mlExe).1⟩ ::
        mlEvents env base rest (i + 1)

/-- The trace of `mailinglist_analyse(resdir, mldir, prosoda_conf, project_conf,
loglevel, logfile, jobs)`: one direct `execute_command` per mailing list. -/
def mailinglist_analyse (env : MlEnv) : List Event :=
  let mlResdir := pathjoin (pathjoin env.resdir env.conf.project) "ml"
  mlEvents env (mlCmdBase env mlResdir) env.conf.mailinglists 0

/-! ### Spec-modelled scheduler primitives

`BatchJob` and `execute_command` live in `prosoda/util.py`, which is not part
of this source snapshot; the two definitions below are modelled from the
spec's contract for them. -/

/-- Modelled from the spec: the body of `execute_command` (in the missing
`prosoda/util.py`) "returns/raises based on the subprocess's exit status
(non-zero exit ⇒ job failure)". -/
def execute_command_outcome (exitStatus : Nat) : Except String Unit :=
  if exitStatus = 0 then Except.ok ()
  else Except.error ("command exited with non-zero status")

/-- Terminal state of a job, as the spec's lifecycle describes it. -/
inductive JobState where
  | succeeded
  | failed
  | skipped
deriving DecidableEq, Repr

/-- Outcome of a `join` call: `All-Succeeded` or `Partial-Failure` listing the
failed and the skipped jobs. -/
inductive Outcome where
  | allSucceeded
  | partialFailure (failed skipped : List Nat)
deriving DecidableEq, Repr

/-- A settled job graph: dependency handles and terminal state per handle. -/
structure JobGraph where
  deps : Nat → List Nat
  state : Nat → JobState

/-- The handles a `join` over `hs` waits for: `hs` and everything they
transitively depend on, unfolded to depth `fuel`. -/
def requiredSet (deps : Nat → List Nat) : Nat → List Nat → List Nat
  | 0, _ => []
  | fuel + 1, hs => hs.flatMap fun h => h :: requiredSet deps fuel (deps h)

/-- Modelled from the spec: `BatchJob.join` (in the missing `prosoda/util.py`)
"blocks the calling flow until every job in `handles`, and transitively
everything they depend on, has reached a terminal state. Returns normally if
all succeeded; raises/returns an aggregate failure describing which jobs
failed and which were skipped" otherwise. -/
def joinOutcome (g : JobGraph) (fuel : Nat) (handles : List Nat) : Outcome :=
  let req := requiredSet g.deps fuel handles
  if req.all (fun h => g.state h == JobState.succeeded) then Outcome.allSucceeded
  else
    Outcome.partialFailure (req.filter fun h => g.state h == JobState.failed)
      (req.filter fun h => g.state h == JobState.skipped)

/-! ### Trace observations -/

/-- The `BatchJob.add` calls of a trace, in program order. -/
def addItems (tr : List Event) : List AddItem :=
  tr.filterMap fun e =>
    match e with
    | Event.add a => some a
    | _ => none

/-- The handles returned by the `BatchJob.add` calls of a trace, in order. -/
def handlesOf (tr : List Event) : List Nat :=
  (addItems tr).map AddItem.handle

/-- The argument lists of the `BatchJob.join` calls of a trace. -/
def joinCalls (tr : List Event) : List (List Nat) :=
  tr.filterMap fun e =>
    match e with
    | Event.join hs => some hs
    | _ => none

/-- Whether an event is a `BatchJob.add` call. -/
def Event.isAddEvent : Event → Bool
  | Event.add _ => true
  | _ => false

/-- Whether an event is a `BatchJob.join` call. -/
def Event.isJoinEvent : Event → Bool
  | Event.join _ => true
  | _ => false

/-- Whether an event is a `BatchJob.set_parallel_jobs` call. -/
def Event.isSetParallel : Event → Bool
  | Event.setParallelJobs _ => true
  | _ => false

/-- Whether a work item is the external cluster-detection process. -/
def Work.isCluster : Work → Bool
  | Work.executeCommand _ => true
  | _ => false

/-- Whether a work item is a graph-rendering (`layout_graph`) job. -/
def Work.isLayout : Work → Bool
  | Work.layoutGraph _ => true
  | _ => false

/-- Whether a work item is a report-generation (`generate_report`) job. -/
def Work.isReport : Work → Bool
  | Work.generateReport _ _ _ => true
  | _ => false

/-- Whether a work item is a commit-analysis (`doProjectAnalysis`) job. -/
def Work.isCommitAnalysis : Work → Bool
  | Work.doProjectAnalysis _ _ _ _ _ _ _ => true
  | _ => false

/-- Whether a work item is a log-message (`loginfo`) job. -/
def Work.isLoginfo : Work → Bool
  | Work.loginfo _ => true
  | _ => false

/-- The file argument of a graph-rendering job, if the work is one. -/
def Work.layoutFile : Work → Option String
  | Work.layoutGraph f => some f
  | _ => none

/-- Select the handle of an `add` call when its work is cluster detection or
report generation. -/
def clusterReportSelect (a : AddItem) : Option Nat :=
  if a.work.isCluster || a.work.isReport then some a.handle else none

/-- The handles of a trace's cluster-detection and report-generation jobs,
in submission order: exactly what `project_analyse` collects in `jobs`. -/
def clusterReportHandles (tr : List Event) : List Nat :=
  (addItems tr).filterMap clusterReportSelect

/-- All `execute_command` invocations of a trace — submitted as jobs or called
directly — with their keyword arguments. -/
def execCalls (tr : List Event) : List (List String × Kwargs) :=
  tr.filterMap fun e =>
    match e with
    | Event.add a =>
        match a.work with
        | Work.executeCommand cmd => some (cmd, a.kwargs)
        | _ => none
    | Event.executeCommandDirect cmd k => some (cmd, k)
    | _ => none

/-- The file arguments of a trace's graph-rendering jobs, in submission
order. -/
def layoutFilesOf (tr : List Event) : List String :=
  (addItems tr).filterMap fun a => a.work.layoutFile

/-- Number of jobs one range submits: three always (commit analysis, a log
message, cluster detection), plus one log message, one rendering job per
`.dot` file and one report job when reports are enabled. -/
def nAdds (env : Env) (projectId rangeId : Nat) : Nat :=
  if env.no_report then 3
  else (env.globDot (rangeResdirOf env projectId rangeId)).length + 5

/-- The `jobs` list `project_analyse` accumulates and passes to
`BatchJob.join`. -/
def collectedJobs (env : Env) : List Nat :=
  let s := project_setup env.db env.conf
  (analyseRanges env s.1 s.2 0 0).2.2

/-! ### Concrete sample inputs for evaluating the embedding -/

/-- A concrete database assignment. -/
def db0 : DB :=
  ⟨fun _ _ => 7, fun _ s => s.length, fun _ p => 100 * p.1 + p.2,
   fun _ rid => (toString rid ++ "A", toString rid ++ "B", toString rid ++ "C")⟩

/-- A configuration with three revisions (two release ranges). -/
def conf0 : Conf :=
  ⟨"proj", "tag", "repo", ["v1", "v2", "v3"], ["rc1", "rc2"],
   [("dev", "discuss")]⟩

/-- A configuration with a single revision (no release range). -/
def conf1 : Conf := ⟨"proj", "tag", "repo", ["v1"], [], []⟩

/-- A run with reports enabled and two `.dot` files per range. -/
def env0 : Env :=
  ⟨"res", "git", "pc", "qc", false, "info", some ("log"), false, 4, conf0, db0,
   fun d => [d ++ "/a.dot", d ++ "/b.dot"]⟩

/-- A run with `no_report` set. -/
def env1 : Env :=
  ⟨"res", "git", "pc", "qc", true, "info", none, false, 2, conf0, db0,
   fun _ => []⟩

/-- A run whose configuration yields no revision ranges. -/
def env2 : Env :=
  ⟨"res", "git", "pc", "qc", false, "info", none, false, 2, conf1, db0,
   fun _ => []⟩

/-- A run with reports enabled whose glob finds no `.dot` files. -/
def env3 : Env :=
  ⟨"res", "git", "pc", "qc", false, "info", none, false, 2, conf0, db0,
   fun _ => []⟩

/-- A concrete mailing-list run. -/
def menv0 : MlEnv :=
  ⟨"res", "mldir", "pc", "qc", "info", some ("log"), 2, conf0⟩

/-- Fallback item for list indexing on concrete traces. -/
def defaultAdd : AddItem := ⟨0, Work.loginfo (""), ⟨none, none⟩, []⟩

/-- First per-range chunk of the `env0` run. -/
def ch0 : List Event := (rangeChunks env0).getD 0 []

/-- First per-range chunk of the `env1` run. -/
def ch1 : List Event := (rangeChunks env1).getD 0 []

/-- First per-range chunk of the `env3` run. -/
def ch3 : List Event := (rangeChunks env3).getD 0 []

/-- The k-th submission of a run. -/
def addAt (env : Env) (k : Nat) : AddItem :=
  (addItems (project_analyse env)).getD k defaultAdd

/-- The k-th `execute_command` invocation of a trace. -/
def execAt (tr : List Event) (k : Nat) : List String × Kwargs :=
  (execCalls tr).getD k ([], ⟨none, none⟩)

/-- A settled job graph with every job succeeded. -/
def g0 : JobGraph := ⟨fun _ => [], fun _ => JobState.succeeded⟩

/-! ### Basic facts about the trace observations -/

theorem addItems_nil : addItems [] = [] := rfl

theorem addItems_add_cons (a : AddItem) (tr : List Event) :
    addItems (Event.add a :: tr) = a :: addItems tr := by
  simp [addItems]

theorem addItems_setParallel_cons (n : Nat) (tr : List Event) :
    addItems (Event.setParallelJobs n :: tr) = addItems tr := by
  simp [addItems]

theorem addItems_check_cons (tr : List Event) :
    addItems (Event.check4ctags :: tr) = addItems tr := by
  simp [addItems]

theorem addItems_join_cons (hs : List Nat) (tr : List Event) :
    addItems (Event.join hs :: tr) = addItems tr := by
  simp [addItems]

theorem addItems_dispatch_cons (s : String) (tr : List Event) :
    addItems (Event.dispatchTsAnalysis s :: tr) = addItems tr := by
  simp [addItems]

theorem addItems_direct_cons (cmd : List String) (k : Kwargs) (tr : List Event) :
    addItems (Event.executeCommandDirect cmd k :: tr) = addItems tr := by
  simp [addItems]

theorem addItems_append (l1 l2 : List Event) :
    addItems (l1 ++ l2) = addItems l1 ++ addItems l2 := by
  simp [addItems]

theorem handlesOf_nil : handlesOf [] = [] := rfl

theorem handlesOf_add_cons (a : AddItem) (tr : List Event) :
    handlesOf (Event.add a :: tr) = a.handle :: handlesOf tr := by
  simp [handlesOf, addItems_add_cons]

theorem handlesOf_append (l1 l2 : List Event) :
    handlesOf (l1 ++ l2) = handlesOf l1 ++ handlesOf l2 := by
  simp [handlesOf, addItems_append]

theorem clusterReportHandles_append (l1 l2 : List Event) :
    clusterReportHandles (l1 ++ l2) =
      clusterReportHandles l1 ++ clusterReportHandles l2 := by
  simp [clusterReportHandles, addItems_append]

/-! ### Facts about the graph-rendering submissions -/

theorem handlesOf_layoutEvents (s2 lj : Nat) :
    ∀ (fs : List String) (c : Nat),
      handlesOf (layoutEvents s2 lj fs c) = List.range' c fs.length
  | [], _ => rfl
  | f :: fs, c => by
      simp only [layoutEvents, handlesOf_add_cons,
        handlesOf_layoutEvents s2 lj fs (c + 1), List.length_cons, List.range'_succ]

theorem layoutFiles_layoutEvents (s2 lj : Nat) :
    ∀ (fs : List String) (c : Nat),
      (addItems (layoutEvents s2 lj fs c)).filterMap (fun a => a.work.layoutFile) = fs
  | [], _ => rfl
  | f :: fs, c => by
      rw [layoutEvents, addItems_add_cons, List.filterMap_cons]
      show f :: (addItems (layoutEvents s2 lj fs (c + 1))).filterMap
          (fun a => a.work.layoutFile) = f :: fs
      rw [layoutFiles_layoutEvents s2 lj fs (c + 1)]

theorem mem_addItems_layoutEvents {s2 lj : Nat} :
    ∀ {fs : List String} {c : Nat} {a : AddItem},
      a ∈ addItems (layoutEvents s2 lj fs c) →
      ∃ h f, f ∈ fs ∧ c ≤ h ∧ h < c + fs.length ∧
        a = ⟨h, Work.layoutGraph f, ⟨none, none⟩, [s2, lj]⟩
  | [], _, _, ha => by simp [layoutEvents, addItems_nil] at ha
  | f :: fs, c, a, ha => by
      rw [layoutEvents, addItems_add_cons] at ha
      rcases List.mem_cons.mp ha with h1 | h2
      · exact ⟨c, f, List.mem_cons_self _ _, Nat.le_refl c,
          by simp, h1⟩
      · obtain ⟨h, g, hg, hc, hlt, rfl⟩ := mem_addItems_layoutEvents h2
        exact ⟨h, g, List.mem_cons_of_mem _ hg, Nat.le_of_succ_le hc,
          by simpa [Nat.add_right_comm] using hlt, rfl⟩

theorem layoutEvents_allAdds (s2 lj : Nat) :
    ∀ (fs : List String) (c : Nat) (e : Event),
      e ∈ layoutEvents s2 lj fs c → e.isAddEvent = true
  | [], _, _, he => by simp [layoutEvents] at he
  | f :: fs, c, e, he => by
      rw [layoutEvents] at he
      rcases List.mem_cons.mp he with h1 | h2
      · subst h1; rfl
      · exact layoutEvents_allAdds s2 lj fs (c + 1) e h2

theorem length_addItems_layoutEvents (s2 lj : Nat) (fs : List String) (c : Nat) :
    (addItems (layoutEvents s2 lj fs c)).length = fs.length := by
  have h := congrArg List.length (handlesOf_layoutEvents s2 lj fs c)
  simpa [handlesOf] using h

/-! ### Per-range shape of the submissions -/

theorem analyseRange_shape (env : Env) (pid i rid c : Nat) :
    (analyseRange env pid i rid c).2.1 = c + nAdds env pid rid ∧
    handlesOf (analyseRange env pid i rid c).1 =
      List.range' c (nAdds env pid rid) ∧
    (addItems (analyseRange env pid i rid c).1).length = nAdds env pid rid := by
  by_cases h : env.no_report
  · refine ⟨?_, ?_, ?_⟩ <;>
      simp [analyseRange, nAdds, h, handlesOf_add_cons, addItems_add_cons,
        handlesOf_nil, addItems_nil, List.range'_succ]
  · have hl := length_addItems_layoutEvents (c + 2) (c + 3)
      (env.globDot (rangeResdirOf env pid rid)) (c + 4)
    have hh := handlesOf_layoutEvents (c + 2) (c + 3)
      (env.globDot (rangeResdirOf env pid rid)) (c + 4)
    refine ⟨?_, ?_, ?_⟩
    · simp [analyseRange, nAdds, h, addItems_add_cons, addItems_append, hl]
      omega
    · simp only [analyseRange, nAdds, h, if_false, Bool.false_eq_true,
        handlesOf_add_cons, handlesOf_append, hh]
      rw [show List.range' c
            ((env.globDot (rangeResdirOf env pid rid)).length + 5) =
          c :: (c + 1) :: (c + 2) :: (c + 3) ::
            List.range' (c + 4)
              ((env.globDot (rangeResdirOf env pid rid)).length + 1) from rfl]
      rw [List.range'_1_concat]
      simp [handlesOf, addItems]
    · simp [analyseRange, nAdds, h, addItems_add_cons, addItems_append,
        addItems_nil, hl]

theorem clusterReportHandles_nil : clusterReportHandles [] = [] := rfl

theorem clusterReportHandles_add_cons (a : AddItem) (tr : List Event) :
    clusterReportHandles (Event.add a :: tr) =
      (if a.work.isCluster || a.work.isReport then [a.handle] else []) ++
        clusterReportHandles tr := by
  cases hc : (a.work.isCluster || a.work.isReport) <;>
    simp [clusterReportHandles, addItems_add_cons, List.filterMap_cons,
      clusterReportSelect, hc]

theorem clusterReportHandles_layoutEvents (s2 lj : Nat) :
    ∀ (fs : List String) (c : Nat),
      clusterReportHandles (layoutEvents s2 lj fs c) = []
  | [], _ => rfl
  | f :: fs, c => by
      rw [layoutEvents, clusterReportHandles_add_cons,
        clusterReportHandles_layoutEvents s2 lj fs (c + 1)]
      rfl

theorem analyseRange_deps (env : Env) (pid i rid c : Nat) :
    ∀ a ∈ addItems (analyseRange env pid i rid c).1,
      ∀ d ∈ a.deps, d < a.handle := by
  intro a ha d hd
  by_cases h : env.no_report
  · simp [analyseRange, h, addItems_add_cons, addItems_nil] at ha
    rcases ha with rfl | rfl | rfl <;> simp_all
  · simp [analyseRange, h, addItems_add_cons, addItems_append,
      addItems_nil] at ha
    rcases ha with rfl | rfl | rfl | rfl | hmem | rfl
    · simp_all
    · simp_all
    · simp_all
    · simp_all
    · obtain ⟨hh, f, _, hc4, _, rfl⟩ := mem_addItems_layoutEvents hmem
      have hd2 : d = c + 2 ∨ d = c + 3 := by simpa using hd
      show d < hh
      omega
    · have hd2 : c + 4 ≤ d ∧
          d < c + 4 + (env.globDot (rangeResdirOf env pid rid)).length := by
        simpa using hd
      show d < c + 4 + (env.globDot (rangeResdirOf env pid rid)).length
      omega

theorem analyseRange_jobs (env : Env) (pid i rid c : Nat) :
    (analyseRange env pid i rid c).2.2 =
      clusterReportHandles (analyseRange env pid i rid c).1 := by
  by_cases h : env.no_report
  · simp only [analyseRange, h, if_true]
    rfl
  · rw [Bool.not_eq_true] at h
    simp only [analyseRange, h, Bool.false_eq_true, if_false]
    rw [clusterReportHandles_add_cons, clusterReportHandles_add_cons,
      clusterReportHandles_add_cons, clusterReportHandles_add_cons,
      clusterReportHandles_append, clusterReportHandles_layoutEvents,
      clusterReportHandles_add_cons, clusterReportHandles_nil]
    simp [Work.isCluster, Work.isReport]

theorem analyseRange_allAdds (env : Env) (pid i rid c : Nat) :
    ∀ e ∈ (analyseRange env pid i rid c).1, e.isAddEvent = true := by
  intro e he
  by_cases h : env.no_report
  · simp [analyseRange, h] at he
    rcases he with rfl | rfl | rfl <;> rfl
  · simp [analyseRange, h] at he
    rcases he with rfl | rfl | rfl | rfl | hmem | rfl
    · rfl
    · rfl
    · rfl
    · rfl
    · exact layoutEvents_allAdds _ _ _ _ e hmem
    · rfl

theorem analyseRange_kwargs (env : Env) (pid i rid c : Nat) :
    ∀ a ∈ addItems (analyseRange env pid i rid c).1,
      a.kwargs = if a.work.isCluster then ⟨some true, some personsCwd⟩
        else ⟨none, none⟩ := by
  intro a ha
  by_cases h : env.no_report
  · simp [analyseRange, h, addItems_add_cons, addItems_nil] at ha
    rcases ha with rfl | rfl | rfl <;> rfl
  · simp [analyseRange, h, addItems_add_cons, addItems_append,
      addItems_nil] at ha
    rcases ha with rfl | rfl | rfl | rfl | hmem | rfl
    · rfl
    · rfl
    · rfl
    · rfl
    · obtain ⟨hh, f, _, _, _, rfl⟩ := mem_addItems_layoutEvents hmem
      rfl
    · rfl

theorem layoutFilesOf_nil : layoutFilesOf [] = [] := rfl

theorem layoutFilesOf_add_cons (a : AddItem) (tr : List Event) :
    layoutFilesOf (Event.add a :: tr) =
      a.work.layoutFile.toList ++ layoutFilesOf tr := by
  cases ho : a.work.layoutFile <;>
    simp [layoutFilesOf, addItems_add_cons, List.filterMap_cons, ho]

theorem layoutFilesOf_append (l1 l2 : List Event) :
    layoutFilesOf (l1 ++ l2) = layoutFilesOf l1 ++ layoutFilesOf l2 := by
  simp [layoutFilesOf, addItems_append]

theorem layoutFilesOf_layoutEvents (s2 lj : Nat) (fs : List String) (c : Nat) :
    layoutFilesOf (layoutEvents s2 lj fs c) = fs :=
  layoutFiles_layoutEvents s2 lj fs c

theorem analyseRange_chain (env : Env) (pid i rid c : Nat)
    (h : env.no_report = false) :
    ∃ s1 s2 rep dotHs sr er resdir,
      (∃ rc rp, Event.add ⟨s1, Work.doProjectAnalysis sr er rc resdir rp true true,
          ⟨none, none⟩, []⟩ ∈ (analyseRange env pid i rid c).1) ∧
      (∃ cmd, Event.add ⟨s2, Work.executeCommand cmd,
          ⟨some true, some personsCwd⟩, [s1]⟩ ∈ (analyseRange env pid i rid c).1) ∧
      layoutFilesOf (analyseRange env pid i rid c).1 = env.globDot resdir ∧
      (∀ a ∈ addItems (analyseRange env pid i rid c).1,
        a.work.isLayout = true → s2 ∈ a.deps ∧ a.handle ∈ dotHs) ∧
      Event.add ⟨rep, Work.generateReport sr er resdir, ⟨none, none⟩, dotHs⟩ ∈
        (analyseRange env pid i rid c).1 := by
  refine ⟨c, c + 2, c + 4 + (env.globDot (rangeResdirOf env pid rid)).length,
    List.range' (c + 4) (env.globDot (rangeResdirOf env pid rid)).length,
    (env.db.getReleaseRange pid rid).1, (env.db.getReleaseRange pid rid).2.1,
    rangeResdirOf env pid rid, ?_, ?_, ?_, ?_, ?_⟩
  · exact ⟨(env.db.getReleaseRange pid rid).2.2,
      pathjoin (pathjoin env.gitdir env.conf.repo) ".git", by simp [analyseRange, h]⟩
  · exact ⟨clusterCmd env i rid (rangeResdirOf env pid rid),
      by simp [analyseRange, h]⟩
  · simp only [analyseRange, h, Bool.false_eq_true, if_false]
    rw [layoutFilesOf_add_cons, layoutFilesOf_add_cons, layoutFilesOf_add_cons,
      layoutFilesOf_add_cons, layoutFilesOf_append, layoutFilesOf_layoutEvents,
      layoutFilesOf_add_cons, layoutFilesOf_nil]
    simp [Work.layoutFile]
  · intro a ha hl
    simp [analyseRange, h, addItems_add_cons, addItems_append,
      addItems_nil] at ha
    rcases ha with rfl | rfl | rfl | rfl | hmem | rfl
    · simp [Work.isLayout] at hl
    · simp [Work.isLayout] at hl
    · simp [Work.isLayout] at hl
    · simp [Work.isLayout] at hl
    · obtain ⟨hh, f, _, hc4, hlt, rfl⟩ := mem_addItems_layoutEvents hmem
      refine ⟨List.mem_cons_self _ _, ?_⟩
      show hh ∈ List.range' (c + 4) (env.globDot (rangeResdirOf env pid rid)).length
      rw [List.mem_range'_1]
      omega
    · simp [Work.isLayout] at hl
  · simp [analyseRange, h]

theorem analyseRange_report (env : Env) (pid i rid c : Nat)
    (h : env.no_report = false) :
    ∃ rep sr er resdir ds,
      Event.add ⟨rep, Work.generateReport sr er resdir, ⟨none, none⟩, ds⟩ ∈
        (analyseRange env pid i rid c).1 ∧
      ds.length = (env.globDot resdir).length ∧
      (env.globDot resdir = [] → ds = [] ∧
        ∀ a ∈ addItems (analyseRange env pid i rid c).1,
          a.work.isLayout = false) := by
  refine ⟨c + 4 + (env.globDot (rangeResdirOf env pid rid)).length,
    (env.db.getReleaseRange pid rid).1, (env.db.getReleaseRange pid rid).2.1,
    rangeResdirOf env pid rid,
    List.range' (c + 4) (env.globDot (rangeResdirOf env pid rid)).length,
    by simp [analyseRange, h], by simp, ?_⟩
  intro hg
  refine ⟨by simp [hg], ?_⟩
  intro a ha
  simp [analyseRange, h, hg, layoutEvents, addItems_add_cons, addItems_append,
    addItems_nil] at ha
  rcases ha with rfl | rfl | rfl | rfl | rfl <;> rfl

theorem analyseRange_noReport (env : Env) (pid i rid c : Nat)
    (h : env.no_report = true) :
    (analyseRange env pid i rid c).1 =
      [Event.add ⟨c, Work.doProjectAnalysis (env.db.getReleaseRange pid rid).1
          (env.db.getReleaseRange pid rid).2.1 (env.db.getReleaseRange pid rid).2.2
          (rangeResdirOf env pid rid)
          (pathjoin (pathjoin env.gitdir env.conf.repo) ".git") true true,
        ⟨none, none⟩, []⟩,
       Event.add ⟨c + 1, Work.loginfo (clusterMsg (env.db.getReleaseRange pid rid).1
          (env.db.getReleaseRange pid rid).2.1), ⟨none, none⟩, [c]⟩,
       Event.add ⟨c + 2, Work.executeCommand
          (clusterCmd env i rid (rangeResdirOf env pid rid)),
        ⟨some true, some personsCwd⟩, [c]⟩] ∧
    (analyseRange env pid i rid c).2.2 = [c + 2] := by
  constructor <;> simp [analyseRange, h]

/-! ### Lifting the per-range facts over the whole loop -/

theorem mem_analyseRanges (env : Env) (pid : Nat) :
    ∀ (rids : List Nat) (i c : Nat) (ch : List Event),
      ch ∈ (analyseRanges env pid rids i c).1 →
      ∃ j rid d, ch = (analyseRange env pid j rid d).1
  | [], _, _, _, h => by simp [analyseRanges] at h
  | rid :: rest, i, c, ch, h => by
      simp only [analyseRanges, List.mem_cons] at h
      rcases h with rfl | h2
      · exact ⟨i, rid, c, rfl⟩
      · exact mem_analyseRanges env pid rest (i + 1)
          (analyseRange env pid i rid c).2.1 ch h2

theorem analyseRanges_counter (env : Env) (pid : Nat) :
    ∀ (rids : List Nat) (i c : Nat),
      (analyseRanges env pid rids i c).2.1 =
        c + (addItems (analyseRanges env pid rids i c).1.flatten).length
  | [], _, _ => by simp [analyseRanges, addItems_nil]
  | rid :: rest, i, c => by
      have h1 := analyseRange_shape env pid i rid c
      have ih := analyseRanges_counter env pid rest (i + 1)
        (analyseRange env pid i rid c).2.1
      simp only [analyseRanges, List.flatten_cons, addItems_append,
        List.length_append] at ih ⊢
      omega

theorem analyseRanges_handles (env : Env) (pid : Nat) :
    ∀ (rids : List Nat) (i c : Nat),
      handlesOf (analyseRanges env pid rids i c).1.flatten =
        List.range' c ((addItems (analyseRanges env pid rids i c).1.flatten).length)
  | [], _, _ => by simp [analyseRanges, handlesOf_nil, addItems_nil]
  | rid :: rest, i, c => by
      obtain ⟨hc, hh, hlen⟩ := analyseRange_shape env pid i rid c
      have ih := analyseRanges_handles env pid rest (i + 1)
        (analyseRange env pid i rid c).2.1
      rw [hc] at ih
      simp only [analyseRanges, List.flatten_cons, handlesOf_append,
        addItems_append, List.length_append, hh, hlen, ih, hc]
      rw [List.range'_append_1, Nat.add_comm]

theorem analyseRanges_jobs (env : Env) (pid : Nat) :
    ∀ (rids : List Nat) (i c : Nat),
      (analyseRanges env pid rids i c).2.2 =
        clusterReportHandles (analyseRanges env pid rids i c).1.flatten
  | [], _, _ => by simp [analyseRanges, clusterReportHandles_nil]
  | rid :: rest, i, c => by
      have h1 := analyseRange_jobs env pid i rid c
      have ih := analyseRanges_jobs env pid rest (i + 1)
        (analyseRange env pid i rid c).2.1
      simp only [analyseRanges, List.flatten_cons, clusterReportHandles_append,
        h1, ih]

theorem mem_addItems_flatten {a : AddItem} {chunks : List (List Event)}
    (h : a ∈ addItems chunks.flatten) : ∃ ch ∈ chunks, a ∈ addItems ch := by
  rw [addItems, List.mem_filterMap] at h
  obtain ⟨e, he, hsel⟩ := h
  obtain ⟨ch, hch, hech⟩ := List.mem_flatten.mp he
  exact ⟨ch, hch, by rw [addItems, List.mem_filterMap]; exact ⟨e, hech, hsel⟩⟩

theorem mem_flatten_allAdds (env : Env) (pid : Nat) (rids : List Nat)
    (i c : Nat) :
    ∀ e ∈ (analyseRanges env pid rids i c).1.flatten, e.isAddEvent = true := by
  intro e he
  obtain ⟨ch, hch, hech⟩ := List.mem_flatten.mp he
  obtain ⟨j, rid, d, rfl⟩ := mem_analyseRanges env pid rids i c ch hch
  exact analyseRange_allAdds env pid j rid d e hech

/-! ### The whole `project_analyse` trace -/

theorem project_analyse_decomp (env : Env) :
    project_analyse env =
      Event.setParallelJobs env.n_jobs ::
        ((if env.conf.tagging = "proximity" then [Event.check4ctags] else []) ++
          (rangeChunks env).flatten ++
          (Event.join (collectedJobs env) ::
            Event.dispatchTsAnalysis (projectResdir env) ::
            [Event.executeCommandDirect (tsCmd env)
              ⟨some true, some analyseTsCwd⟩])) := rfl

theorem rangeChunks_allAdds (env : Env) :
    ∀ e ∈ (rangeChunks env).flatten, e.isAddEvent = true :=
  mem_flatten_allAdds env (project_setup env.db env.conf).1
    (project_setup env.db env.conf).2 0 0

theorem addItems_project_analyse (env : Env) :
    addItems (project_analyse env) = addItems (rangeChunks env).flatten := by
  rw [project_analyse_decomp, addItems_setParallel_cons]
  by_cases ht : env.conf.tagging = "proximity" <;>
    simp [ht, addItems_append, addItems_check_cons, addItems_join_cons,
      addItems_dispatch_cons, addItems_direct_cons, addItems_nil]

theorem handlesOf_project_analyse (env : Env) :
    handlesOf (project_analyse env) = handlesOf (rangeChunks env).flatten := by
  simp [handlesOf, addItems_project_analyse]

theorem clusterReportHandles_project_analyse (env : Env) :
    clusterReportHandles (project_analyse env) =
      clusterReportHandles (rangeChunks env).flatten := by
  simp [clusterReportHandles, addItems_project_analyse]

theorem joinCalls_eq_nil {tr : List Event}
    (h : ∀ e ∈ tr, e.isAddEvent = true) : joinCalls tr = [] := by
  rw [joinCalls, List.filterMap_eq_nil_iff]
  intro e he
  have h2 := h e he
  cases e <;> simp_all [Event.isAddEvent]

theorem joinCalls_append (l1 l2 : List Event) :
    joinCalls (l1 ++ l2) = joinCalls l1 ++ joinCalls l2 := by
  simp [joinCalls]

theorem joinCalls_project_analyse (env : Env) :
    joinCalls (project_analyse env) = [collectedJobs env] := by
  rw [project_analyse_decomp]
  have hflat := joinCalls_eq_nil (rangeChunks_allAdds env)
  by_cases ht : env.conf.tagging = "proximity" <;>
    simp [ht, joinCalls, List.filterMap_append] <;>
    simpa [joinCalls] using hflat

theorem project_analyse_addItems_transfer (env : Env) {a : AddItem}
    (ha : a ∈ addItems (project_analyse env)) :
    ∃ j rid d, a ∈ addItems (analyseRange env
      (project_setup env.db env.conf).1 j rid d).1 := by
  rw [addItems_project_analyse] at ha
  obtain ⟨ch, hch, hach⟩ := mem_addItems_flatten ha
  obtain ⟨j, rid, d, rfl⟩ := mem_analyseRanges env
    (project_setup env.db env.conf).1 (project_setup env.db env.conf).2 0 0 ch hch
  exact ⟨j, rid, d, hach⟩

theorem project_analyse_deps (env : Env) :
    ∀ a ∈ addItems (project_analyse env), ∀ d ∈ a.deps, d < a.handle := by
  intro a ha
  obtain ⟨j, rid, d, hach⟩ := project_analyse_addItems_transfer env ha
  exact analyseRange_deps env _ j rid d a hach

theorem project_analyse_kwargs (env : Env) :
    ∀ a ∈ addItems (project_analyse env),
      a.kwargs = if a.work.isCluster then ⟨some true, some personsCwd⟩
        else ⟨none, none⟩ := by
  intro a ha
  obtain ⟨j, rid, d, hach⟩ := project_analyse_addItems_transfer env ha
  exact analyseRange_kwargs env _ j rid d a hach

theorem project_analyse_handle_index (env : Env) :
    handlesOf (project_analyse env) =
      List.range' 0 ((addItems (project_analyse env)).length) := by
  rw [handlesOf_project_analyse, addItems_project_analyse]
  exact analyseRanges_handles env (project_setup env.db env.conf).1
    (project_setup env.db env.conf).2 0 0

theorem collectedJobs_eq (env : Env) :
    collectedJobs env = clusterReportHandles (project_analyse env) := by
  rw [clusterReportHandles_project_analyse]
  exact analyseRanges_jobs env (project_setup env.db env.conf).1
    (project_setup env.db env.conf).2 0 0

/-! ### The claims -/

/-- C2: every `BatchJob.add` call in `project_analyse` passes in `deps` only
handles returned by strictly earlier `BatchJob.add` calls: the handle of the
k-th submission is k, and every dependency of a submission is strictly smaller
than its own handle, so the dependency relation is acyclic by construction. -/
theorem deps_only_earlier_handles (env : Env) :
    (∀ (k : Nat) (a : AddItem),
      (addItems (project_analyse env))[k]? = some a → a.handle = k) ∧
    ∀ a ∈ addItems (project_analyse env), ∀ d ∈ a.deps, d < a.handle := by
  refine ⟨?_, project_analyse_deps env⟩
  intro k a hka
  have h := project_analyse_handle_index env
  rw [handlesOf] at h
  have hk : k < (addItems (project_analyse env)).length :=
    (List.getElem?_eq_some_iff.mp hka).1
  have h2 := congrArg (fun l => l[k]?) h
  simp only [List.getElem?_map, hka, Option.map_some,
    List.getElem?_range' 0 1 hk] at h2
  simpa using h2

/-- C4: the process-wide parallelism level is set exactly once, by the very
first scheduler interaction `BatchJob.set_parallel_jobs(n_jobs)`, before every
`BatchJob.add` submission of the run. -/
theorem parallelism_set_once_first (env : Env) :
    ∃ rest, project_analyse env =
        Event.setParallelJobs env.n_jobs :: rest ∧
      ∀ e ∈ rest, e.isSetParallel = false := by
  refine ⟨_, project_analyse_decomp env, ?_⟩
  intro e he
  simp only [List.mem_append, List.mem_cons, List.mem_singleton,
    List.not_mem_nil, or_false] at he
  rcases he with (hc | hf) | rfl | rfl | rfl
  · by_cases ht : env.conf.tagging = "proximity"
    · simp [ht] at hc
      subst hc; rfl
    · simp [ht] at hc
  · have hadd := rangeChunks_allAdds env e hf
    cases e <;> simp_all [Event.isAddEvent, Event.isSetParallel]
  · rfl
  · rfl
  · rfl

theorem mem_addItems_of_mem {a : AddItem} {tr : List Event}
    (h : Event.add a ∈ tr) : a ∈ addItems tr := by
  rw [addItems, List.mem_filterMap]
  exact ⟨Event.add a, h, rfl⟩

theorem project_analyse_direct_events (env : Env) :
    ∀ cmd k, Event.executeCommandDirect cmd k ∈ project_analyse env →
      cmd = tsCmd env ∧ k = ⟨some true, some analyseTsCwd⟩ := by
  intro cmd k hk
  rw [project_analyse_decomp] at hk
  simp only [List.mem_cons, List.mem_append, List.not_mem_nil,
    or_false] at hk
  rcases hk with hk | (hc | hf) | hk | hk | hk
  · simp at hk
  · by_cases ht : env.conf.tagging = "proximity"
    · simp [ht] at hc
    · simp [ht] at hc
  · have hadd := rangeChunks_allAdds env _ hf
    simp [Event.isAddEvent] at hadd
  · simp at hk
  · simp at hk
  · exact Event.executeCommandDirect.inj hk

/-- C3: `BatchJob.join` is called exactly once, on the collected handles of
every range's cluster-detection and report-generation jobs, after every
submission and before both global post-processing stages (time-series
generation, then the time-series analysis `execute_command`). -/
theorem join_once_between_stages (env : Env) :
    ∃ pre, project_analyse env =
        pre ++ Event.join (clusterReportHandles (project_analyse env)) ::
          [Event.dispatchTsAnalysis (projectResdir env),
           Event.executeCommandDirect (tsCmd env) ⟨some true, some analyseTsCwd⟩] ∧
      (∀ e ∈ pre, e.isJoinEvent = false) ∧
      ∀ e ∈ project_analyse env, e.isAddEvent = true → e ∈ pre := by
  refine ⟨Event.setParallelJobs env.n_jobs ::
    ((if env.conf.tagging = "proximity" then [Event.check4ctags] else []) ++
      (rangeChunks env).flatten), ?_, ?_, ?_⟩
  · rw [← collectedJobs_eq, project_analyse_decomp]
    simp
  · intro e he
    simp only [List.mem_cons, List.mem_append] at he
    rcases he with rfl | hc | hf
    · rfl
    · by_cases ht : env.conf.tagging = "proximity"
      · simp [ht] at hc
        subst hc; rfl
      · simp [ht] at hc
    · have hadd := rangeChunks_allAdds env e hf
      cases e <;> simp_all [Event.isAddEvent, Event.isJoinEvent]
  · intro e he hadd
    rw [project_analyse_decomp] at he
    simp only [List.mem_cons, List.mem_append, List.not_mem_nil,
      or_false] at he
    simp only [List.mem_cons, List.mem_append]
    rcases he with rfl | (hc | hf) | rfl | rfl | rfl
    · exact Or.inl rfl
    · exact Or.inr (Or.inl hc)
    · exact Or.inr (Or.inr hf)
    · simp [Event.isAddEvent] at hadd
    · simp [Event.isAddEvent] at hadd
    · simp [Event.isAddEvent] at hadd

/-- C5: direct I/O is a per-job option: the cluster-detection external-process
submission carries `direct_io=True` in its keyword arguments, the global
time-series `execute_command` invocation also passes `direct_io=True`, and
every other submission (commit analysis, log messages, graph rendering,
report generation) carries no direct I/O option at all. -/
theorem direct_io_is_per_job (env : Env) :
    (∀ a ∈ addItems (project_analyse env),
        a.kwargs.directIoFlag = if a.work.isCluster then some true else none) ∧
    ∀ cmd k, Event.executeCommandDirect cmd k ∈ project_analyse env →
      k.directIoFlag = some true := by
  constructor
  · intro a ha
    have h := project_analyse_kwargs env a ha
    by_cases hc : a.work.isCluster <;> rw [h] <;> simp [hc]
  · intro cmd k hk
    obtain ⟨-, rfl⟩ := project_analyse_direct_events env cmd k hk
    rfl

/-- C1: for every revision range processed with reports enabled, the submitted
jobs form the chain the spec describes: a commit-analysis job `s1` with no
dependencies, a cluster-detection `execute_command` job depending on `s1`, one
graph-rendering job per `.dot` file globbed in the range's result directory,
each depending on the cluster-detection job, and a report-generation job whose
dependency list is exactly the graph-rendering handles. -/
theorem chain_per_revision_range (env : Env) (h : env.no_report = false) :
    ∀ ch ∈ rangeChunks env, ∃ s1 s2 rep dotHs sr er resdir,
      (∃ rc rp, Event.add ⟨s1, Work.doProjectAnalysis sr er rc resdir rp true true,
          ⟨none, none⟩, []⟩ ∈ ch) ∧
      (∃ cmd, Event.add ⟨s2, Work.executeCommand cmd,
          ⟨some true, some personsCwd⟩, [s1]⟩ ∈ ch) ∧
      layoutFilesOf ch = env.globDot resdir ∧
      (∀ a ∈ addItems ch, a.work.isLayout = true →
        s2 ∈ a.deps ∧ a.handle ∈ dotHs) ∧
      Event.add ⟨rep, Work.generateReport sr er resdir, ⟨none, none⟩, dotHs⟩ ∈
        ch := by
  intro ch hch
  obtain ⟨j, rid, d, rfl⟩ := mem_analyseRanges env
    (project_setup env.db env.conf).1 (project_setup env.db env.conf).2 0 0 ch hch
  exact analyseRange_chain env (project_setup env.db env.conf).1 j rid d h

/-- C8: for every revision range with reports enabled, the report-generation
job's dependency list has one handle per `.dot` file globbed at submission
time; when the glob is empty the report job is submitted with an empty
dependency list (hence immediately eligible) and the range has no
graph-rendering jobs at all. -/
theorem report_deps_from_submission_glob (env : Env) (h : env.no_report = false) :
    ∀ ch ∈ rangeChunks env, ∃ rep sr er resdir ds,
      Event.add ⟨rep, Work.generateReport sr er resdir, ⟨none, none⟩, ds⟩ ∈ ch ∧
      ds.length = (env.globDot resdir).length ∧
      (env.globDot resdir = [] → ds = [] ∧
        ∀ a ∈ addItems ch, a.work.isLayout = false) := by
  intro ch hch
  obtain ⟨j, rid, d, rfl⟩ := mem_analyseRanges env
    (project_setup env.db env.conf).1 (project_setup env.db env.conf).2 0 0 ch hch
  exact analyseRange_report env (project_setup env.db env.conf).1 j rid d h

/-- C9: with `no_report` set, each revision range submits exactly the
commit-analysis job, one log-message job and the cluster-detection job — no
graph-rendering or report-generation jobs anywhere — and `BatchJob.join` is
awaited over the cluster-detection handles only. -/
theorem no_report_reduced_pipeline (env : Env) (h : env.no_report = true) :
    (∀ ch ∈ rangeChunks env, ∃ c sr er rc resdir repo cmd,
        ch = [Event.add ⟨c, Work.doProjectAnalysis sr er rc resdir repo true true,
            ⟨none, none⟩, []⟩,
          Event.add ⟨c + 1, Work.loginfo (clusterMsg sr er), ⟨none, none⟩, [c]⟩,
          Event.add ⟨c + 2, Work.executeCommand cmd,
            ⟨some true, some personsCwd⟩, [c]⟩]) ∧
    (∀ a ∈ addItems (project_analyse env),
        a.work.isLayout = false ∧ a.work.isReport = false) ∧
    joinCalls (project_analyse env) =
      [(addItems (project_analyse env)).filterMap
        fun a => if a.work.isCluster then some a.handle else none] := by
  have hch : ∀ ch ∈ rangeChunks env, ∃ c sr er rc resdir repo cmd,
      ch = [Event.add ⟨c, Work.doProjectAnalysis sr er rc resdir repo true true,
          ⟨none, none⟩, []⟩,
        Event.add ⟨c + 1, Work.loginfo (clusterMsg sr er), ⟨none, none⟩, [c]⟩,
        Event.add ⟨c + 2, Work.executeCommand cmd,
          ⟨some true, some personsCwd⟩, [c]⟩] := by
    intro ch hmem
    obtain ⟨j, rid, d, rfl⟩ := mem_analyseRanges env
      (project_setup env.db env.conf).1 (project_setup env.db env.conf).2 0 0
      ch hmem
    obtain ⟨he, -⟩ := analyseRange_noReport env
      (project_setup env.db env.conf).1 j rid d h
    exact ⟨d, _, _, _, _, _, _, he⟩
  have hworks : ∀ a ∈ addItems (project_analyse env),
      a.work.isLayout = false ∧ a.work.isReport = false := by
    intro a ha
    rw [addItems_project_analyse] at ha
    obtain ⟨ch, hchm, hach⟩ := mem_addItems_flatten ha
    obtain ⟨c, sr, er, rc, resdir, repo, cmd, rfl⟩ := hch ch hchm
    simp only [addItems_add_cons, addItems_nil, List.mem_cons,
      List.not_mem_nil, or_false] at hach
    rcases hach with rfl | rfl | rfl <;> exact ⟨rfl, rfl⟩
  refine ⟨hch, hworks, ?_⟩
  rw [joinCalls_project_analyse, collectedJobs_eq]
  simp only [List.cons.injEq, and_true]
  rw [clusterReportHandles]
  apply List.filterMap_congr
  intro a ha
  have hw := (hworks a ha).2
  simp [clusterReportSelect, hw]

theorem mem_mlEvents (env : MlEnv) (base : List String) :
    ∀ (mls : List (String × String)) (i : Nat) (e : Event),
      e ∈ mlEvents env base mls i →
      ∃ cmd, e = Event.executeCommandDirect cmd
        ⟨some true, some (pathsplit mlExe).1⟩
  | [], _, _, he => by simp [mlEvents] at he
  | ml :: rest, i, e, he => by
      simp only [mlEvents, List.mem_cons] at he
      rcases he with rfl | h2
      · exact ⟨_, rfl⟩
      · exact mem_mlEvents env base rest (i + 1) e h2

/-- C6: every `execute_command` invocation in this module passes an argument
vector (the embedding types it `List String`), a working directory and the
direct I/O flag; and the wrapper itself (modelled from the spec, its body
living in the missing `prosoda/util.py`) returns normally exactly on zero
subprocess exit status. -/
theorem execute_command_invocations (env : Env) (menv : MlEnv) :
    (∀ p ∈ execCalls (project_analyse env),
        p.2.directIoFlag = some true ∧ p.2.cwd.isSome = true) ∧
    (∀ p ∈ execCalls (mailinglist_analyse menv),
        p.2.directIoFlag = some true ∧ p.2.cwd.isSome = true) ∧
    ∀ s : Nat, execute_command_outcome s = Except.ok () ↔ s = 0 := by
  refine ⟨?_, ?_, ?_⟩
  · intro p hp
    rw [execCalls, List.mem_filterMap] at hp
    obtain ⟨e, he, hsel⟩ := hp
    cases e with
    | add a =>
        dsimp only at hsel
        cases hw : a.work with
        | executeCommand cmd =>
            rw [hw] at hsel
            simp only [Option.some_inj] at hsel
            subst hsel
            have ha := mem_addItems_of_mem he
            have hk := project_analyse_kwargs env a ha
            have hcl : a.work.isCluster = true := by rw [hw]; rfl
            rw [hcl, if_pos rfl] at hk
            simp [hk]
        | doProjectAnalysis sr er rc rr rp cdb lh => rw [hw] at hsel; cases hsel
        | loginfo msg => rw [hw] at hsel; cases hsel
        | layoutGraph f => rw [hw] at hsel; cases hsel
        | generateReport sr er rr => rw [hw] at hsel; cases hsel
    | executeCommandDirect cmd k =>
        obtain ⟨-, rfl⟩ := project_analyse_direct_events env cmd k he
        dsimp only at hsel
        simp only [Option.some_inj] at hsel
        subst hsel
        exact ⟨rfl, rfl⟩
    | setParallelJobs n => simp [execCalls] at hsel
    | check4ctags => simp [execCalls] at hsel
    | join hs => simp [execCalls] at hsel
    | dispatchTsAnalysis s => simp [execCalls] at hsel
  · intro p hp
    rw [execCalls, List.mem_filterMap] at hp
    obtain ⟨e, he, hsel⟩ := hp
    obtain ⟨cmd, rfl⟩ := mem_mlEvents menv _ _ 0 e he
    simp only [Option.some_inj] at hsel
    subst hsel
    exact ⟨rfl, rfl⟩
  · intro s
    constructor
    · intro hok
      by_contra hs
      simp [execute_command_outcome, hs] at hok
    · intro hs
      simp [execute_command_outcome, hs]

/-- C7: calling `join` on an empty handle list returns the All-Succeeded
outcome at once (spec-modelled `BatchJob.join`), and when the configuration
yields no revision ranges (fewer than two revisions) `project_analyse`'s
single `BatchJob.join` call receives exactly the empty list. -/
theorem join_empty_all_succeeded (env : Env)
    (h : env.conf.revisions.length ≤ 1) :
    joinCalls (project_analyse env) = [[]] ∧
    ∀ (g : JobGraph) (fuel : Nat),
      joinOutcome g fuel [] = Outcome.allSucceeded := by
  constructor
  · rw [joinCalls_project_analyse]
    have hz : (project_setup env.db env.conf).2 = [] := by
      rcases hr : env.conf.revisions with _ | ⟨r, rest⟩
      · simp [project_setup, hr]
      · rcases rest with _ | ⟨r2, rest2⟩
        · simp [project_setup, hr]
        · rw [hr] at h
          simp at h
    simp only [collectedJobs, hz]
    rfl
  · intro g fuel
    cases fuel <;> rfl

/-- C10: `project_setup` returns one release-range id per consecutive pair of
configured revisions: the result has length `n - 1` for `n` revisions, and its
i-th entry is the release-range id derived from `(revisions[i],
revisions[i+1])`. -/
theorem setup_consecutive_revision_ranges (db : DB) (conf : Conf) :
    (project_setup db conf).2.length = conf.revisions.length - 1 ∧
    ∀ (i : Nat) (s e : String),
      conf.revisions[i]? = some s → conf.revisions[i + 1]? = some e →
      (project_setup db conf).2[i]? = some (db.getReleaseRangeID
        (db.getProjectID conf.project conf.tagging)
        (db.getRevisionID (db.getProjectID conf.project conf.tagging) s,
         db.getRevisionID (db.getProjectID conf.project conf.tagging) e)) := by
  constructor
  · simp [project_setup]
  · intro i s e hs he
    have ht : conf.revisions.tail[i]? = some e := by
      rw [List.getElem?_tail]
      exact he
    have hz : (conf.revisions.zip conf.revisions.tail)[i]? = some (s, e) :=
      List.getElem?_zip_eq_some.mpr ⟨hs, ht⟩
    simp only [project_setup, List.getElem?_map, hz, Option.map_some]
    rfl

/-! ### Witnesses: the claims evaluated on the concrete sample runs -/

/-- Witness for C1 on the concrete run `env0` and its first range chunk. -/
theorem chain_per_revision_range_witness :
    env0.no_report = false ∧ ch0 ∈ rangeChunks env0 ∧
    (∃ s1 s2 rep dotHs sr er resdir,
      (∃ rc rp, Event.add ⟨s1, Work.doProjectAnalysis sr er rc resdir rp true true,
          ⟨none, none⟩, []⟩ ∈ ch0) ∧
      (∃ cmd, Event.add ⟨s2, Work.executeCommand cmd,
          ⟨some true, some personsCwd⟩, [s1]⟩ ∈ ch0) ∧
      layoutFilesOf ch0 = env0.globDot resdir ∧
      (∀ a ∈ addItems ch0, a.work.isLayout = true →
        s2 ∈ a.deps ∧ a.handle ∈ dotHs) ∧
      Event.add ⟨rep, Work.generateReport sr er resdir, ⟨none, none⟩, dotHs⟩ ∈
        ch0) :=
  ⟨rfl, by decide, chain_per_revision_range env0 rfl ch0 (by decide)⟩

/-- Witness for C2 on the concrete run `env0`. -/
theorem deps_only_earlier_handles_witness :
    (addItems (project_analyse env0))[0]? = some (addAt env0 0) ∧
    (addAt env0 0).handle = 0 ∧
    addAt env0 1 ∈ addItems (project_analyse env0) ∧
    0 ∈ (addAt env0 1).deps ∧ 0 < (addAt env0 1).handle :=
  ⟨by decide, (deps_only_earlier_handles env0).1 0 (addAt env0 0) (by decide),
   by decide, by decide,
   (deps_only_earlier_handles env0).2 (addAt env0 1) (by decide) 0 (by decide)⟩

/-- Witness for C3 on the concrete run `env0`. -/
theorem join_once_between_stages_witness :
    ∃ pre, project_analyse env0 =
        pre ++ Event.join (clusterReportHandles (project_analyse env0)) ::
          [Event.dispatchTsAnalysis (projectResdir env0),
           Event.executeCommandDirect (tsCmd env0) ⟨some true, some analyseTsCwd⟩] ∧
      (∀ e ∈ pre, e.isJoinEvent = false) ∧
      ∀ e ∈ project_analyse env0, e.isAddEvent = true → e ∈ pre :=
  join_once_between_stages env0

/-- Witness for C4 on the concrete run `env0`. -/
theorem parallelism_set_once_first_witness :
    ∃ rest, project_analyse env0 =
        Event.setParallelJobs env0.n_jobs :: rest ∧
      ∀ e ∈ rest, e.isSetParallel = false :=
  parallelism_set_once_first env0

/-- Witness for C5 on the concrete run `env0`: the cluster-detection
submission (handle 2) and the time-series invocation. -/
theorem direct_io_is_per_job_witness :
    addAt env0 2 ∈ addItems (project_analyse env0) ∧
    (addAt env0 2).kwargs.directIoFlag =
      (if (addAt env0 2).work.isCluster then some true else none) ∧
    Event.executeCommandDirect (tsCmd env0) ⟨some true, some analyseTsCwd⟩ ∈
      project_analyse env0 ∧
    Kwargs.directIoFlag ⟨some true, some analyseTsCwd⟩ = some true :=
  ⟨by decide, (direct_io_is_per_job env0).1 (addAt env0 2) (by decide),
   by decide,
   (direct_io_is_per_job env0).2 (tsCmd env0) ⟨some true, some analyseTsCwd⟩
     (by decide)⟩

/-- Witness for C6 on the concrete runs `env0` and `menv0`. -/
theorem execute_command_invocations_witness :
    execAt (project_analyse env0) 0 ∈ execCalls (project_analyse env0) ∧
    ((execAt (project_analyse env0) 0).2.directIoFlag = some true ∧
      (execAt (project_analyse env0) 0).2.cwd.isSome = true) ∧
    execAt (mailinglist_analyse menv0) 0 ∈
      execCalls (mailinglist_analyse menv0) ∧
    ((execAt (mailinglist_analyse menv0) 0).2.directIoFlag = some true ∧
      (execAt (mailinglist_analyse menv0) 0).2.cwd.isSome = true) ∧
    (execute_command_outcome 0 = Except.ok () ↔ (0 : Nat) = 0) ∧
    (execute_command_outcome 2 = Except.ok () ↔ (2 : Nat) = 0) :=
  ⟨by decide,
   (execute_command_invocations env0 menv0).1 _ (by decide),
   by decide,
   (execute_command_invocations env0 menv0).2.1 _ (by decide),
   (execute_command_invocations env0 menv0).2.2 0,
   (execute_command_invocations env0 menv0).2.2 2⟩

/-- Witness for C7 on the concrete run `env2` (a single revision). -/
theorem join_empty_all_succeeded_witness :
    env2.conf.revisions.length ≤ 1 ∧
    joinCalls (project_analyse env2) = [[]] ∧
    joinOutcome g0 3 [] = Outcome.allSucceeded :=
  ⟨by decide, (join_empty_all_succeeded env2 (by decide)).1,
   (join_empty_all_succeeded env2 (by decide)).2 g0 3⟩

/-- Witness for C8 on the concrete run `env3` (empty glob). -/
theorem report_deps_from_submission_glob_witness :
    env3.no_report = false ∧ ch3 ∈ rangeChunks env3 ∧
    (∃ rep sr er resdir ds,
      Event.add ⟨rep, Work.generateReport sr er resdir, ⟨none, none⟩, ds⟩ ∈
        ch3 ∧
      ds.length = (env3.globDot resdir).length ∧
      (env3.globDot resdir = [] → ds = [] ∧
        ∀ a ∈ addItems ch3, a.work.isLayout = false)) :=
  ⟨rfl, by decide, report_deps_from_submission_glob env3 rfl ch3 (by decide)⟩

/-- Witness for C9 on the concrete run `env1` (`no_report` set). -/
theorem no_report_reduced_pipeline_witness :
    env1.no_report = true ∧ ch1 ∈ rangeChunks env1 ∧
    (∃ c sr er rc resdir repo cmd,
        ch1 = [Event.add ⟨c, Work.doProjectAnalysis sr er rc resdir repo true true,
            ⟨none, none⟩, []⟩,
          Event.add ⟨c + 1, Work.loginfo (clusterMsg sr er), ⟨none, none⟩, [c]⟩,
          Event.add ⟨c + 2, Work.executeCommand cmd,
            ⟨some true, some personsCwd⟩, [c]⟩]) ∧
    joinCalls (project_analyse env1) =
      [(addItems (project_analyse env1)).filterMap
        fun a => if a.work.isCluster then some a.handle else none] :=
  ⟨rfl, by decide, (no_report_reduced_pipeline env1 rfl).1 ch1 (by decide),
   (no_report_reduced_pipeline env1 rfl).2.2⟩

/-- Witness for C10 on the concrete database `db0` and configuration
`conf0`. -/
theorem setup_consecutive_revision_ranges_witness :
    conf0.revisions[0]? = some ("v1") ∧
    conf0.revisions[1]? = some ("v2") ∧
    (project_setup db0 conf0).2.length = conf0.revisions.length - 1 ∧
    (project_setup db0 conf0).2[0]? = some (db0.getReleaseRangeID
        (db0.getProjectID conf0.project conf0.tagging)
        (db0.getRevisionID (db0.getProjectID conf0.project conf0.tagging) ("v1"),
         db0.getRevisionID (db0.getProjectID conf0.project conf0.tagging)
           ("v2"))) :=
  ⟨rfl, rfl, (setup_consecutive_revision_ranges db0 conf0).1,
   (setup_consecutive_revision_ranges db0 conf0).2 0 ("v1") ("v2") rfl rfl⟩

end Prosoda
